import Mathlib

/-!
# Feedback-Tracker: authorization and privacy-filtering layer

A shallow embedding of the server-side data model and request handlers of the
Feedback-Tracker repository, and theorems checking the natural-language
specification against it.

Conventions of the embedding:
* MongoDB ObjectIds are modelled as `Nat`; `Date` values as `Nat` timestamps.
* A handler that runs after the auth middleware takes the resolved principal
  (`User`) as an argument; a route registered *without* auth middleware takes
  no principal at all (as in `src/unnamed/part_000` and the summary-report
  route of `src/server/routes/admin.js`).
* JS `undefined` body fields are `Option.none`; JS truthiness of strings and
  numbers is modelled by `strFalsy` / `numFalsy`.
* HTTP error statuses are the constructors of `HErr`.
* The store is a `List Feedback`; `findById` is first-match on the id.
-/

/-- The two roles of the User schema (`role ∈ {user, admin}`). -/
inductive Role where
  | user
  | admin
deriving Repr, DecidableEq

/-- User record (fields used by `src/server/routes/auth.js` and the auth
middleware; `isActive` is the active flag checked at login). -/
structure User where
  id : Nat
  username : String
  email : String
  password : String
  name : String
  role : Role
  isActive : Bool
deriving Repr, DecidableEq

/-- Embedded AI suggestion (`aiSuggestions` subdocument of the Feedback
schema in `src/unnamed/part_001`). -/
structure AISuggestion where
  suggestion : String
  confidence : ℚ
  generatedAt : Nat
deriving Repr, DecidableEq

/-- Feedback document, following the schema of `src/unnamed/part_001`.
`userId` is optional for backward compatibility with legacy records;
`createdAt`/`updatedAt` come from the `timestamps: true` schema option. -/
structure Feedback where
  fid : Nat
  userId : Option Nat := none
  customerName : String
  customerEmail : String
  subject : String
  message : String
  rating : Int
  category : String := "general"
  adminResponse : Option String := none
  status : String := "pending"
  aiSuggestions : List AISuggestion := []
  priority : String := "medium"
  isPublic : Bool := true
  respondedAt : Option Nat := none
  resolvedAt : Option Nat := none
  createdAt : Nat := 0
  updatedAt : Nat := 0
deriving Repr, DecidableEq

/-- HTTP-style error outcomes used by the handlers. -/
inductive HErr where
  | badRequest
  | unauthenticated
  | forbidden
  | notFound
  | serverError
deriving Repr, DecidableEq

deriving instance DecidableEq for Except

/-- JS falsiness of an optional string body field (`!x` is true for
`undefined` and for the empty string). -/
def strFalsy (s : Option String) : Bool :=
  s.getD "" = ""

/-- JS falsiness of an optional numeric body field (`!x` is true for
`undefined` and for `0`). -/
def numFalsy (n : Option Int) : Bool :=
  n.getD 0 = 0

/-- Model of `User.findById`: first user with the given id. -/
def findUser (users : List User) (uid : Nat) : Option User :=
  users.find? (fun u => u.id == uid)

/-- Model of `Feedback.findById`: first feedback with the given id. -/
def findById (db : List Feedback) (id : Nat) : Option Feedback :=
  db.find? (fun fb => fb.fid == id)

/-- The `requireAuth` middleware (`src/server/middleware/auth.js`, included at
the end of `src/server/routes/admin.js`): missing `x-user-id` header → 401;
user id that resolves to no user → 401; otherwise the found user becomes the
request principal.  No other condition is checked. -/
def requireAuth (users : List User) (token : Option Nat) : Except HErr User :=
  match token with
  | none => .error .unauthenticated
  | some uid =>
    match findUser users uid with
    | none => .error .unauthenticated
    | some u => .ok u

/-- The `requireAdmin` middleware: no principal or non-admin role → 403. -/
def requireAdmin (principal : Option User) : Except HErr User :=
  match principal with
  | none => .error .forbidden
  | some u => if u.role = Role.admin then .ok u else .error .forbidden

/-- Model of `POST /api/auth/login` (`src/server/routes/auth.js`): find by username or
email, compare plaintext password, reject deactivated accounts. -/
def login (users : List User) (username password : String) : Except HErr User :=
  if username = "" ∨ password = "" then .error .badRequest
  else
    match users.find? (fun u => u.username == username || u.email == username) with
    | none => .error .unauthenticated
    | some u =>
      if u.password ≠ password then .error .unauthenticated
      else if ¬ u.isActive then .error .unauthenticated
      else .ok u

/-- The Ownership Filter rule as written in spec §4.3:
`canAccess(principal, record) := principal.role == admin OR
record.ownerId == principal.id`. -/
def canAccess (p : User) (fb : Feedback) : Bool :=
  p.role == Role.admin || fb.userId == some p.id

/-- The privacy check shared by the single-record feedback handlers
(`src/server/routes/feedback.js` lines 142, 270, 348):
`req.user.role !== 'admin' && feedback.userId && !feedback.userId.equals(req.user._id)`.
Note the `feedback.userId &&` conjunct: a record with no owner id never
trips the check. -/
def privacyDenied (p : User) (fb : Feedback) : Bool :=
  p.role != Role.admin && fb.userId.isSome && fb.userId != some p.id

/-- Model of `GET /api/feedback/:id` after `requireAuth`: 404 if absent, 403 on the
privacy check, else the full record. -/
def getFeedback (db : List Feedback) (p : User) (id : Nat) : Except HErr Feedback :=
  match findById db id with
  | none => .error .notFound
  | some fb =>
    if privacyDenied p fb then .error .forbidden
    else .ok fb

/-- Model of `Feedback.findByIdAndDelete` effect on the store. -/
def removeById (db : List Feedback) (id : Nat) : List Feedback :=
  db.filter (fun fb => fb.fid != id)

/-- Model of `DELETE /api/feedback/:id` after `requireAuth`: 404 if absent, 403 on the
privacy check, else delete and succeed with the resulting store. -/
def deleteFeedback (db : List Feedback) (p : User) (id : Nat) :
    Except HErr (List Feedback) :=
  match findById db id with
  | none => .error .notFound
  | some fb =>
    if privacyDenied p fb then .error .forbidden
    else .ok (removeById db id)

/-- Model of `String.prototype.toLowerCase`, character-wise. -/
def lowerStr (s : String) : String :=
  ⟨s.data.map Char.toLower⟩

/-- Model of `String.prototype.trim`: strip leading and trailing whitespace. -/
def trimStr (s : String) : String :=
  ⟨((s.data.dropWhile Char.isWhitespace).reverse.dropWhile Char.isWhitespace).reverse⟩

/-- Case-insensitive substring test, modelling a Mongo
`{$regex: search, $options: 'i'}` match with a literal search string. -/
def containsCI (hay pat : String) : Bool :=
  decide (List.IsInfix (lowerStr pat).data (lowerStr hay).data)

/-- The Mongo filter document built by the list/stats handlers of
`src/server/routes/feedback.js`: an optional equality constraint per field,
`rating: {$gte: _}`, and the `$or` text search. -/
structure FeedbackFilter where
  userId : Option Nat := none
  status : Option String := none
  category : Option String := none
  ratingGte : Option Int := none
  search : Option String := none
deriving Repr, DecidableEq

/-- Mongo matching semantics of a `FeedbackFilter` against one document.
A `userId` equality constraint only matches documents that *have* that
owner id; documents with the field absent do not match. -/
def matchesFilter (fl : FeedbackFilter) (fb : Feedback) : Bool :=
  (match fl.userId with | none => true | some uid => fb.userId == some uid) &&
  (match fl.status with | none => true | some s => fb.status == s) &&
  (match fl.category with | none => true | some c => fb.category == c) &&
  (match fl.ratingGte with | none => true | some r => r ≤ fb.rating) &&
  (match fl.search with
   | none => true
   | some s => containsCI fb.subject s || containsCI fb.message s ||
       containsCI fb.customerName s)

/-- Query parameters of `GET /api/feedback` with the handler's defaults. -/
structure ListQuery where
  status : Option String := none
  category : Option String := none
  rating : Option Int := none
  page : Nat := 1
  limit : Nat := 10
  sort : String := "-createdAt"
  search : Option String := none
deriving Repr, DecidableEq

/-- The filter object built by `GET /api/feedback` (lines 44-66): privacy
first — non-admins are restricted to `userId = req.user._id` *inside the
query filter* — then the optional status/category/rating/search filters. -/
def buildListFilter (p : User) (q : ListQuery) : FeedbackFilter :=
  { userId := if p.role ≠ Role.admin then some p.id else none
    status := q.status
    category := q.category
    ratingGte := q.rating
    search := q.search }

/-- Insertion step for the sort model. -/
def insertLe (le : Feedback → Feedback → Bool) (x : Feedback) :
    List Feedback → List Feedback
  | [] => [x]
  | y :: ys => if le x y then x :: y :: ys else y :: insertLe le x ys

/-- Insertion sort used to model Mongo `.sort(...)`. -/
def sortLe (le : Feedback → Feedback → Bool) : List Feedback → List Feedback
  | [] => []
  | x :: xs => insertLe le x (sortLe le xs)

/-- Mongo `.sort(sortKey)` for the sort keys meaningful to this schema;
other key strings are modelled as leaving the order unchanged (any Mongo
sort is a permutation, which is all the theorems rely on). -/
def applySort (sortKey : String) (l : List Feedback) : List Feedback :=
  if sortKey = "-createdAt" then sortLe (fun a b => b.createdAt ≤ a.createdAt) l
  else if sortKey = "createdAt" then sortLe (fun a b => a.createdAt ≤ b.createdAt) l
  else if sortKey = "-rating" then sortLe (fun a b => b.rating ≤ a.rating) l
  else if sortKey = "rating" then sortLe (fun a b => a.rating ≤ b.rating) l
  else l

/-- Model of `.select('-aiSuggestions')`: the list view projects away AI suggestion
contents. -/
def stripSuggestions (fb : Feedback) : Feedback :=
  { fb with aiSuggestions := [] }

/-- Response of `GET /api/feedback`: page data plus pagination metadata. -/
structure ListResponse where
  data : List Feedback
  currentPage : Nat
  totalPages : Nat
  totalItems : Nat
  itemsPerPage : Nat
  hasNextPage : Bool
  hasPrevPage : Bool
deriving Repr, DecidableEq

/-- Model of `GET /api/feedback` after `requireAuth` (lines 28-110): build the filter
(privacy included), run `find` with sort/skip/limit and the projection, count
the *filtered* set, and compute the pagination metadata from that count. -/
def listFeedback (db : List Feedback) (p : User) (q : ListQuery) : ListResponse :=
  let fl := buildListFilter p q
  let matched := db.filter (fun fb => matchesFilter fl fb)
  let totalCount := matched.length
  let skip := (q.page - 1) * q.limit
  let pageData := (((applySort q.sort matched).drop skip).take q.limit).map stripSuggestions
  let totalPages := (totalCount + q.limit - 1) / q.limit
  { data := pageData
    currentPage := q.page
    totalPages := totalPages
    totalItems := totalCount
    itemsPerPage := q.limit
    hasNextPage := decide (q.page < totalPages)
    hasPrevPage := decide (1 < q.page) }

/-- Request body of `POST /api/feedback`.  `userId` is included to represent
a client *attempting* to supply an owner id; the handler never reads it. -/
structure CreateBody where
  customerName : Option String := none
  customerEmail : Option String := none
  subject : Option String := none
  message : Option String := none
  rating : Option Int := none
  category : Option String := none
  userId : Option Nat := none
deriving Repr, DecidableEq

/-- Membership in the `category` enum of the schema. -/
def categoryOk (c : String) : Bool :=
  c = "general" || c = "product" || c = "service" || c = "technical" ||
  c = "billing" || c = "suggestion"

/-- Membership in the `status` enum of the schema. -/
def statusOk (s : String) : Bool :=
  s = "pending" || s = "responded" || s = "resolved"

/-- Membership in the `priority` enum of the schema. -/
def priorityOk (s : String) : Bool :=
  s = "low" || s = "medium" || s = "high" || s = "urgent"

/-- Full-document schema validation run by `save()` on a new document
(`src/unnamed/part_001`): required fields non-empty, length bounds, rating
range, enum membership.  The customer-email regex is an external collaborator
of the embedding and is passed in as the opaque predicate `emailOk`. -/
def validNewFeedback (emailOk : String → Bool) (fb : Feedback) : Bool :=
  fb.customerName ≠ "" && fb.customerName.length ≤ 100 &&
  fb.customerEmail ≠ "" && emailOk fb.customerEmail &&
  fb.subject ≠ "" && fb.subject.length ≤ 200 &&
  fb.message ≠ "" && 10 ≤ fb.message.length && fb.message.length ≤ 1000 &&
  1 ≤ fb.rating && fb.rating ≤ 5 &&
  categoryOk fb.category && statusOk fb.status && priorityOk fb.priority

/-- Model of `category || 'general'`: JS falsy default. -/
def categoryOrDefault (c : Option String) : String :=
  if c.getD "" = "" then "general" else c.getD ""

/-- Construction of the document by `new Feedback({userId: req.user._id, ...})`:
string setters trim (and lowercase the email) on assignment; the owner id is
`req.user._id`, never a body field. -/
def newFeedbackDoc (p : User) (b : CreateBody) (newId now : Nat) : Feedback :=
  { fid := newId
    userId := some p.id
    customerName := trimStr (b.customerName.getD "")
    customerEmail := lowerStr (trimStr (b.customerEmail.getD ""))
    subject := trimStr (b.subject.getD "")
    message := trimStr (b.message.getD "")
    rating := b.rating.getD 0
    category := categoryOrDefault b.category
    createdAt := now
    updatedAt := now }

/-- Model of `POST /api/feedback` after `requireAuth` (lines 190-248):
presence check with JS truthiness, handler-level rating range check, then
construction of the document and a validating `save()`.  Validation failure
is caught and returned as 400. -/
def createFeedback (emailOk : String → Bool) (p : User) (b : CreateBody)
    (newId now : Nat) : Except HErr Feedback :=
  if strFalsy b.customerName || strFalsy b.customerEmail || strFalsy b.subject ||
      strFalsy b.message || numFalsy b.rating then .error .badRequest
  else if b.rating.getD 0 < 1 || 5 < b.rating.getD 0 then .error .badRequest
  else if validNewFeedback emailOk (newFeedbackDoc p b newId now) then
    .ok (newFeedbackDoc p b newId now)
  else .error .badRequest

/-- Request body of `PUT /api/feedback/:id`.  Besides the role-writable
fields it carries fields outside every allowed set (`userId`,
`customerName`, `customerEmail`, `isPublic`, `respondedAt`, `resolvedAt`)
to represent a client supplying them; the handler's allowed-updates loop
never copies them. -/
structure UpdateBody where
  status : Option String := none
  adminResponse : Option String := none
  priority : Option String := none
  subject : Option String := none
  message : Option String := none
  rating : Option Int := none
  category : Option String := none
  userId : Option Nat := none
  customerName : Option String := none
  customerEmail : Option String := none
  isPublic : Option Bool := none
  respondedAt : Option Nat := none
  resolvedAt : Option Nat := none
deriving Repr, DecidableEq

/-- The `updates` object handed to `findByIdAndUpdate`: only fields present
(`!== undefined`) are set. -/
structure UpdatePatch where
  status : Option String := none
  adminResponse : Option String := none
  priority : Option String := none
  subject : Option String := none
  message : Option String := none
  rating : Option Int := none
  category : Option String := none
  respondedAt : Option Nat := none
  resolvedAt : Option Nat := none
deriving Repr, DecidableEq

/-- Model of `findByIdAndUpdate(id, updates, {new: true})` applied to one document:
each present patch field overwrites, everything else is untouched;
`timestamps: true` refreshes `updatedAt`.  `findByIdAndUpdate` bypasses the
schema's `pre('save')` middleware, so no automatic stamping happens here. -/
def applyPatch (fb : Feedback) (u : UpdatePatch) (now : Nat) : Feedback :=
  { fb with
    status := u.status.getD fb.status
    adminResponse := match u.adminResponse with
      | none => fb.adminResponse
      | some s => some s
    priority := u.priority.getD fb.priority
    subject := u.subject.getD fb.subject
    message := u.message.getD fb.message
    rating := u.rating.getD fb.rating
    category := u.category.getD fb.category
    respondedAt := match u.respondedAt with
      | none => fb.respondedAt
      | some t => some t
    resolvedAt := match u.resolvedAt with
      | none => fb.resolvedAt
      | some t => some t
    updatedAt := now }

/-- Model of `runValidators: true`: update validators check the paths present in the
patch against the schema bounds/enums. -/
def validPatch (u : UpdatePatch) : Bool :=
  (match u.status with | none => true | some s => statusOk s) &&
  (match u.adminResponse with | none => true | some s => s.length ≤ 2000) &&
  (match u.priority with | none => true | some s => priorityOk s) &&
  (match u.subject with | none => true | some s => s ≠ "" && s.length ≤ 200) &&
  (match u.message with
   | none => true
   | some s => s ≠ "" && 10 ≤ s.length && s.length ≤ 1000) &&
  (match u.rating with | none => true | some r => 1 ≤ r && r ≤ 5) &&
  (match u.category with | none => true | some c => categoryOk c)

/-- JS truthiness of `req.body.adminResponse && req.body.adminResponse.trim()`:
present, non-empty, and non-blank after trimming. -/
def respNonBlank (r : Option String) : Bool :=
  match r with
  | none => false
  | some s => s ≠ "" && trimStr s ≠ ""

/-- The per-role `allowedUpdates` copy loop plus the admin adminResponse
branch of `PUT /api/feedback/:id` (lines 278-298): admins may set
status/adminResponse/priority, non-admins subject/message/rating/category;
an admin supplying a non-blank adminResponse forces `status := 'responded'`
and (unconditionally) `respondedAt := now`. -/
def buildUpdatePatch (p : User) (b : UpdateBody) (now : Nat) : UpdatePatch :=
  let base : UpdatePatch :=
    if p.role = Role.admin then
      { status := b.status, adminResponse := b.adminResponse,
        priority := b.priority }
    else
      { subject := b.subject, message := b.message, rating := b.rating,
        category := b.category }
  if p.role = Role.admin && respNonBlank b.adminResponse then
    { base with status := some "responded", respondedAt := some now }
  else base

/-- Model of `PUT /api/feedback/:id` after `requireAuth` (lines 254-326): 404 if
absent, 403 on the privacy check, apply only the allowed fields, validator
failure is caught as 400, else the updated document. -/
def updateFeedback (db : List Feedback) (p : User) (id : Nat) (b : UpdateBody)
    (now : Nat) : Except HErr Feedback :=
  match findById db id with
  | none => .error .notFound
  | some fb =>
    if privacyDenied p fb then .error .forbidden
    else
      let patch := buildUpdatePatch p b now
      if validPatch patch then .ok (applyPatch fb patch now)
      else .error .badRequest

/-- The `pre('save')` middleware of the Feedback schema
(`src/unnamed/part_001` lines 219-226): when the status path was modified
to `'responded'` and `respondedAt` is not yet set, stamp it.  It runs only
on `save()`, never on `findByIdAndUpdate`. -/
def preSaveStamp (statusModified : Bool) (fb : Feedback) (now : Nat) : Feedback :=
  if statusModified && fb.status == "responded" && fb.respondedAt == none then
    { fb with respondedAt := some now }
  else fb

/-- Model of `PUT /api/admin/feedback/:id/response` after `requireAuth, requireAdmin`
(`src/server/routes/admin.js` lines 145-198): blank response → 400; absent
id → 404; else assign the trimmed response, the body status (defaulting to
`'responded'`), and `respondedAt := now` unconditionally, then `save()`
(pre-save stamp plus validation of the modified paths; a validation error is
caught as 500). -/
def adminRespond (db : List Feedback) (id : Nat) (adminResponse status : Option String)
    (now : Nat) : Except HErr Feedback :=
  let st := status.getD "responded"
  if ¬ respNonBlank adminResponse then .error .badRequest
  else
    match findById db id with
    | none => .error .notFound
    | some fb =>
      let fb1 := { fb with
        adminResponse := some (trimStr (adminResponse.getD ""))
        status := st
        respondedAt := some now }
      let fb2 := preSaveStamp (fb1.status ≠ fb.status) fb1 now
      if statusOk fb2.status && (trimStr (adminResponse.getD "")).length ≤ 2000 then
        .ok { fb2 with updatedAt := now }
      else .error .serverError

/-- Model of `PUT /api/admin/feedback/:id/status` after `requireAuth, requireAdmin`
(`src/server/routes/admin.js` lines 204-257): enum check → 400, then a
`findByIdAndUpdate` whose patch is `{status}` plus `{resolvedAt: now}` only
when the new status is `'resolved'`; 404 when the id matches nothing. -/
def adminSetStatus (db : List Feedback) (id : Nat) (status : String)
    (now : Nat) : Except HErr Feedback :=
  if ¬ statusOk status then .error .badRequest
  else
    match findById db id with
    | none => .error .notFound
    | some fb =>
      let patch : UpdatePatch :=
        { status := some status
          resolvedAt := if status = "resolved" then some now else none }
      .ok (applyPatch fb patch now)

/-- Result shape of `geminiService.analyzeSentiment`. -/
structure SentimentAnalysis where
  sentiment : String
  confidence : ℚ
  emotions : List String
  urgency : String
  keyPoints : List String
deriving Repr, DecidableEq

/-- The default analysis returned when the AI call fails
(`src/server/services/geminiService.js` lines 163-169). -/
def fallbackSentiment : SentimentAnalysis :=
  { sentiment := "neutral"
    confidence := 1/2
    emotions := ["unknown"]
    urgency := "medium"
    keyPoints := ["Requires manual review"] }

/-- Model of `geminiService.analyzeSentiment(message)` (lines 131-171): the upstream
`generateContent` call is the collaborator `upstream` (`Except` models
throw-vs-text), `JSON.parse` of the trimmed text is the collaborator `parse`
(`none` models a parse exception).  Any failure is caught and replaced by
`fallbackSentiment`; nothing propagates. -/
def analyzeSentiment (upstream : Except String String)
    (parse : String → Option SentimentAnalysis) : SentimentAnalysis :=
  match upstream with
  | .error _ => fallbackSentiment
  | .ok text =>
    match parse (trimStr text) with
    | none => fallbackSentiment
    | some a => a

/-- Model of `POST /api/ai/analyze-sentiment/:feedbackId` (`src/unnamed/part_000`
lines 123-163).  The route is registered with *no* middleware, so the
handler takes no principal: it looks the record up by id and returns the
analysis together with the record's message text to whoever asks. -/
def analyzeSentimentRoute (db : List Feedback) (feedbackId : Nat)
    (ai : String → SentimentAnalysis) :
    Except HErr (Nat × SentimentAnalysis × String) :=
  match findById db feedbackId with
  | none => .error .notFound
  | some fb => .ok (feedbackId, ai fb.message, fb.message)

/-- One row of the summary-report aggregation. -/
structure SummaryReport where
  totalFeedback : Nat
  avgRating : ℚ
  byStatus : List (String × Nat)
  byCategory : List (String × Int)
deriving Repr, DecidableEq

/-- Model of `GET /api/admin/reports/summary` (`src/server/routes/admin.js` lines
454-515).  The route is registered with *no* middleware — no `requireAuth`,
no `requireAdmin` — so the handler takes no principal.  The aggregation
matches on the optional date range only (applied only when both bounds are
supplied) and reduces over *all* feedback records; an empty group yields
`data: {}`, modelled as `none`. -/
def summaryDateFilter (startDate endDate : Option Nat) (fb : Feedback) : Bool :=
  match startDate, endDate with
  | some s, some e => s ≤ fb.createdAt && fb.createdAt ≤ e
  | _, _ => true

/-- The aggregation of `GET /api/admin/reports/summary`, reducing over every
record that passes the date filter — and nothing else. -/
def summaryReport (db : List Feedback) (startDate endDate : Option Nat) :
    Option SummaryReport :=
  let matched := db.filter (summaryDateFilter startDate endDate)
  if matched.isEmpty then none
  else some
    { totalFeedback := matched.length
      avgRating := ((matched.map (fun fb => fb.rating)).sum : ℚ) / (matched.length : ℚ)
      byStatus := matched.map (fun fb => (fb.status, 1))
      byCategory := matched.map (fun fb => (fb.category, fb.rating)) }

/-- The stats match filter of `GET /api/feedback/stats/overview`
(`src/server/routes/feedback.js` lines 384-391): the same privacy predicate
as the list route, with no other constraints. -/
def buildStatsFilter (p : User) : FeedbackFilter :=
  { userId := if p.role ≠ Role.admin then some p.id else none }

/-- The overview group of `GET /api/feedback/stats/overview` (lines
393-412): counts over the privacy-filtered set. -/
structure StatsOverview where
  totalFeedback : Nat
  totalPending : Nat
  totalResponded : Nat
  totalResolved : Nat
deriving Repr, DecidableEq

/-- Model of `GET /api/feedback/stats/overview` after `requireAuth`: aggregate with
the privacy `$match` first. -/
def statsOverview (db : List Feedback) (p : User) : StatsOverview :=
  let matched := db.filter (fun fb => matchesFilter (buildStatsFilter p) fb)
  { totalFeedback := matched.length
    totalPending := (matched.filter (fun fb => fb.status == "pending")).length
    totalResponded := (matched.filter (fun fb => fb.status == "responded")).length
    totalResolved := (matched.filter (fun fb => fb.status == "resolved")).length }

/-- Sample regular user (owner of `fbAlice`). -/
def uAlice : User :=
  { id := 1, username := "alice", email := "alice@example.com",
    password := "alicepw1", name := "Alice", role := Role.user, isActive := true }

/-- Sample admin user. -/
def uAdmin : User :=
  { id := 2, username := "admin", email := "admin@feedbacktracker.com",
    password := "admin123", name := "System Administrator",
    role := Role.admin, isActive := true }

/-- Sample regular user who owns nothing in `sampleDb`. -/
def uBob : User :=
  { id := 3, username := "bob", email := "bob@example.com",
    password := "bobpw123", name := "Bob", role := Role.user, isActive := true }

/-- Sample deactivated user. -/
def uEve : User :=
  { id := 4, username := "eve", email := "eve@example.com",
    password := "evepw123", name := "Eve", role := Role.user, isActive := false }

/-- Sample user store. -/
def sampleUsers : List User := [uAlice, uAdmin, uBob, uEve]

/-- Feedback record owned by `uAlice`. -/
def fbAlice : Feedback :=
  { fid := 1, userId := some 1, customerName := "Alice",
    customerEmail := "alice@example.com", subject := "Great service",
    message := "The support team was fantastic", rating := 5,
    category := "service", createdAt := 100, updatedAt := 100 }

/-- Ownerless legacy feedback record. -/
def fbLegacy : Feedback :=
  { fid := 2, userId := none, customerName := "Walkin",
    customerEmail := "walkin@example.com", subject := "Old note",
    message := "A legacy feedback record", rating := 3,
    createdAt := 50, updatedAt := 50 }

/-- Already-responded feedback record owned by `uAlice`. -/
def fbResponded : Feedback :=
  { fid := 3, userId := some 1, customerName := "Alice",
    customerEmail := "alice@example.com", subject := "Billing question",
    message := "Please check my last invoice", rating := 4,
    category := "billing", adminResponse := some "Looking into it",
    status := "responded", respondedAt := some 120,
    createdAt := 110, updatedAt := 120 }

/-- Sample feedback store. -/
def sampleDb : List Feedback := [fbAlice, fbLegacy, fbResponded]

theorem mem_insertLe (le : Feedback → Feedback → Bool) (a x : Feedback)
    (l : List Feedback) : x ∈ insertLe le a l ↔ x = a ∨ x ∈ l := by
  induction l with
  | nil => simp [insertLe]
  | cons y ys ih =>
    simp only [insertLe]
    split
    · simp
    · simp only [List.mem_cons, ih]
      tauto

theorem mem_sortLe (le : Feedback → Feedback → Bool) (x : Feedback)
    (l : List Feedback) : x ∈ sortLe le l ↔ x ∈ l := by
  induction l with
  | nil => simp [sortLe]
  | cons y ys ih => simp [sortLe, mem_insertLe, ih]

theorem length_insertLe (le : Feedback → Feedback → Bool) (a : Feedback)
    (l : List Feedback) : (insertLe le a l).length = l.length + 1 := by
  induction l with
  | nil => simp [insertLe]
  | cons y ys ih =>
    simp only [insertLe]
    split
    · simp
    · simp [ih]

theorem length_sortLe (le : Feedback → Feedback → Bool) (l : List Feedback) :
    (sortLe le l).length = l.length := by
  induction l with
  | nil => simp [sortLe]
  | cons y ys ih => simp [sortLe, length_insertLe, ih]

theorem mem_applySort (s : String) (x : Feedback) (l : List Feedback) :
    x ∈ applySort s l ↔ x ∈ l := by
  unfold applySort
  split_ifs <;> simp [mem_sortLe]

theorem length_applySort (s : String) (l : List Feedback) :
    (applySort s l).length = l.length := by
  unfold applySort
  split_ifs <;> simp [length_sortLe]

/-- C1: for every authenticated non-admin principal, every record returned by
the feedback List operation has the principal's owner id; for an admin the
query places no owner restriction and (with no explicit filters and a large
enough page) the result contains every record, ownerless legacy ones
included; and the ownership restriction is part of the query predicate the
store filters by — the page data and the total count are both computed from
the predicate-filtered set, not by post-filtering a larger fetch. -/
theorem list_privacy_filter (db : List Feedback) (p : User) (q : ListQuery) :
    (p.role ≠ Role.admin →
      ∀ fb ∈ (listFeedback db p q).data, fb.userId = some p.id) ∧
    (p.role = Role.admin →
      (buildListFilter p q).userId = none ∧
      (q.status = none → q.category = none → q.rating = none → q.search = none →
        q.page = 1 → db.length ≤ q.limit →
        ∀ fb ∈ db, stripSuggestions fb ∈ (listFeedback db p q).data)) ∧
    ((listFeedback db p q).data =
      ((((applySort q.sort
          (db.filter (fun fb => matchesFilter (buildListFilter p q) fb))).drop
        ((q.page - 1) * q.limit)).take q.limit).map stripSuggestions) ∧
     (listFeedback db p q).totalItems =
      (db.filter (fun fb => matchesFilter (buildListFilter p q) fb)).length) := by
  refine ⟨?_, ?_, rfl, rfl⟩
  · intro hrole fb hfb
    simp only [listFeedback, List.mem_map] at hfb
    obtain ⟨fb0, hfb0, rfl⟩ := hfb
    have h1 : fb0 ∈ applySort q.sort
        (db.filter (fun fb => matchesFilter (buildListFilter p q) fb)) :=
      List.drop_subset _ _ (List.take_subset _ _ hfb0)
    have h2 := (mem_applySort _ _ _).mp h1
    have h3 := (List.mem_filter.mp h2).2
    simp only [matchesFilter, buildListFilter, if_pos hrole, Bool.and_eq_true,
      beq_iff_eq] at h3
    exact h3.1.1.1.1
  · intro hrole
    constructor
    · simp [buildListFilter, hrole]
    · intro h1 h2 h3 h4 hpage hlim fb hfb
      have hall : db.filter (fun fb => matchesFilter (buildListFilter p q) fb) = db := by
        refine List.filter_eq_self.mpr (fun a _ => ?_)
        simp [matchesFilter, buildListFilter, hrole, h1, h2, h3, h4]
      simp only [listFeedback, hall, hpage, Nat.sub_self, Nat.zero_mul,
        List.drop_zero]
      rw [List.take_of_length_le (by rw [length_applySort]; exact hlim)]
      exact List.mem_map_of_mem _ ((mem_applySort _ _ _).mpr hfb)

theorem list_privacy_filter_witness :
    (stripSuggestions fbAlice).userId = some uAlice.id ∧
    stripSuggestions fbLegacy ∈ (listFeedback sampleDb uAdmin {}).data := by
  constructor
  · exact (list_privacy_filter sampleDb uAlice {}).1 (by decide)
      (stripSuggestions fbAlice) (by decide)
  · exact ((list_privacy_filter sampleDb uAdmin {}).2.1 rfl).2
      rfl rfl rfl rfl rfl (by decide) fbLegacy (by decide)

/-- C2 counterexample: the non-admin, non-owner `uBob` performs Get, Update
and Delete on the ownerless legacy record and every one of them succeeds —
the code returns the record, applies the update and deletes it instead of
the `Forbidden` the claim requires, because the privacy check is skipped
entirely when `feedback.userId` is absent. -/
theorem legacy_access_cex :
    fbLegacy.userId = none ∧ uBob.role ≠ Role.admin ∧
    getFeedback sampleDb uBob 2 = Except.ok fbLegacy ∧
    updateFeedback sampleDb uBob 2 { subject := some "Hijacked subject" } 300 =
      Except.ok
        { fbLegacy with
          subject := "Hijacked subject",
          updatedAt := 300 } ∧
    deleteFeedback sampleDb uBob 2 = Except.ok [fbAlice, fbResponded] := by
  refine ⟨rfl, by decide, by decide, by decide, by decide⟩

/-- C2 amended: a feedback record with no owner id is accessible to *every*
authenticated principal on the single-record operations — Get returns it,
Delete removes it, and Update never answers Forbidden for it — because the
privacy check `feedback.userId && ...` is skipped when the owner id is
absent; only the List query excludes ownerless records from non-admins. -/
theorem legacy_access_amended (db : List Feedback) (p : User) (q : ListQuery)
    (b : UpdateBody) (now id : Nat) (fb : Feedback)
    (hfind : findById db id = some fb) (hnone : fb.userId = none) :
    getFeedback db p id = Except.ok fb ∧
    deleteFeedback db p id = Except.ok (removeById db id) ∧
    updateFeedback db p id b now ≠ Except.error HErr.forbidden ∧
    (p.role ≠ Role.admin → matchesFilter (buildListFilter p q) fb = false) := by
  have hdeny : privacyDenied p fb = false := by
    simp [privacyDenied, hnone]
  refine ⟨?_, ?_, ?_, ?_⟩
  · simp [getFeedback, hfind, hdeny]
  · simp [deleteFeedback, hfind, hdeny]
  · simp only [updateFeedback, hfind, hdeny, Bool.false_eq_true, if_false]
    split <;> simp
  · intro hrole
    simp [matchesFilter, buildListFilter, if_pos hrole, hnone]

theorem legacy_access_amended_witness :
    getFeedback sampleDb uBob 2 = Except.ok fbLegacy ∧
    deleteFeedback sampleDb uBob 2 = Except.ok (removeById sampleDb 2) ∧
    updateFeedback sampleDb uBob 2 { subject := some "Hijacked subject" } 300 ≠
      Except.error HErr.forbidden ∧
    matchesFilter (buildListFilter uBob {}) fbLegacy = false := by
  have h := legacy_access_amended sampleDb uBob {}
    { subject := some "Hijacked subject" } 300 2 fbLegacy (by decide) rfl
  exact ⟨h.1, h.2.1, h.2.2.1, h.2.2.2 (by decide)⟩

/-- C3 counterexample: the sentiment-analysis route takes no principal at
all (it is registered without auth middleware) and happily returns the
message text of `uAlice`'s record to an anonymous caller, and the summary
report aggregates every record in the store with no principal either —
neither operation enforces `canAccess` or requires a resolved principal. -/
theorem unguarded_routes_cex :
    fbAlice.userId = some uAlice.id ∧ uAlice.role ≠ Role.admin ∧
    analyzeSentimentRoute sampleDb 1 (fun _ => fallbackSentiment) =
      Except.ok (1, fallbackSentiment, fbAlice.message) ∧
    (summaryReport sampleDb none none).map (fun r => r.totalFeedback) = some 3 ∧
    sampleDb.length = 3 :=
  ⟨rfl, by decide, rfl, by decide, rfl⟩

/-- C3 amended: the feedback-router single-record operations do require a
principal and enforce the ownership rule for owner-bearing records, but the
AI sentiment-analysis route and the admin summary report are registered
without any auth middleware: they take no principal and perform no access
check — sentiment analysis returns the message of any existing record to
any caller, and the summary report aggregates every record in the store. -/
theorem access_rule_scope_amended (db : List Feedback) (p : User)
    (id now : Nat) (b : UpdateBody) (fb : Feedback)
    (ai : String → SentimentAnalysis)
    (hfind : findById db id = some fb)
    (hown : fb.userId.isSome = true) (hdeny : canAccess p fb = false) :
    getFeedback db p id = Except.error HErr.forbidden ∧
    updateFeedback db p id b now = Except.error HErr.forbidden ∧
    deleteFeedback db p id = Except.error HErr.forbidden ∧
    analyzeSentimentRoute db id ai = Except.ok (id, ai fb.message, fb.message) ∧
    (db ≠ [] → ∃ r, summaryReport db none none = some r ∧
      r.totalFeedback = db.length) := by
  have hd : privacyDenied p fb = true := by
    simp only [canAccess, Bool.or_eq_false_iff, beq_eq_false_iff_ne] at hdeny
    simp [privacyDenied, hown, hdeny.1, hdeny.2]
  refine ⟨?_, ?_, ?_, ?_, ?_⟩
  · simp [getFeedback, hfind, hd]
  · simp [updateFeedback, hfind, hd]
  · simp [deleteFeedback, hfind, hd]
  · simp [analyzeSentimentRoute, hfind]
  · intro hne
    have hfil : db.filter (summaryDateFilter none none) = db :=
      List.filter_eq_self.mpr (fun a _ => rfl)
    have hne' : ¬ db.isEmpty = true := by
      simpa [List.isEmpty_iff] using hne
    refine ⟨{ totalFeedback := db.length,
              avgRating := ((db.map (fun fb => fb.rating)).sum : ℚ) / (db.length : ℚ),
              byStatus := db.map (fun fb => (fb.status, 1)),
              byCategory := db.map (fun fb => (fb.category, fb.rating)) }, ?_, rfl⟩
    simp only [summaryReport, hfil]
    rw [if_neg hne']

theorem access_rule_scope_amended_witness :
    getFeedback sampleDb uBob 1 = Except.error HErr.forbidden ∧
    updateFeedback sampleDb uBob 1 {} 0 = Except.error HErr.forbidden ∧
    deleteFeedback sampleDb uBob 1 = Except.error HErr.forbidden ∧
    analyzeSentimentRoute sampleDb 1 (fun _ => fallbackSentiment) =
      Except.ok (1, fallbackSentiment, fbAlice.message) ∧
    (∃ r, summaryReport sampleDb none none = some r ∧
      r.totalFeedback = sampleDb.length) := by
  have h := access_rule_scope_amended sampleDb uBob 1 0 {} fbAlice
    (fun _ => fallbackSentiment) (by decide) (by decide) (by decide)
  exact ⟨h.1, h.2.1, h.2.2.1, h.2.2.2.1, h.2.2.2.2 (by decide)⟩

/-- C4: whenever Create succeeds, the persisted record's owner id is the
authenticated principal's id, and the handler never reads a client-supplied
owner id — replacing the body's `userId` field with anything at all leaves
the result unchanged. -/
theorem create_owner_is_principal (emailOk : String → Bool) (p : User)
    (b : CreateBody) (newId now : Nat) (fb : Feedback)
    (h : createFeedback emailOk p b newId now = Except.ok fb) :
    fb.userId = some p.id ∧
    ∀ x, createFeedback emailOk p { b with userId := x } newId now =
      createFeedback emailOk p b newId now := by
  refine ⟨?_, fun x => rfl⟩
  unfold createFeedback at h
  split at h
  · exact absurd h (by simp)
  · split at h
    · exact absurd h (by simp)
    · split at h
      · cases h
        rfl
      · exact absurd h (by simp)

theorem create_owner_is_principal_witness :
    ({ fid := 9, userId := some 1, customerName := "Carol",
       customerEmail := "carol@example.com", subject := "Subject here",
       message := "This message has enough length", rating := 4,
       category := "general", createdAt := 200, updatedAt := 200 } :
      Feedback).userId = some uAlice.id :=
  (create_owner_is_principal (fun _ => true) uAlice
    { customerName := some "Carol", customerEmail := some "carol@example.com",
      subject := some "Subject here",
      message := some "This message has enough length",
      rating := some 4, userId := some 999 } 9 200 _ (by decide)).1

/-- C5 counterexample: the token of the deactivated user `uEve`
(`isActive = false`) still resolves to a principal — `requireAuth` never
consults the active flag, contradicting the claim that a deactivated user's
token fails. -/
theorem inactive_principal_cex :
    requireAuth sampleUsers (some uEve.id) = Except.ok uEve ∧
    uEve.isActive = false := by
  exact ⟨by decide, rfl⟩

/-- C5 amended: the Principal Resolver fails with Unauthenticated when the
token is absent and when it resolves to no user, and otherwise returns the
found user *regardless of the active flag* — a deactivated user's token
still yields a principal; only the login operation rejects deactivated
accounts. -/
theorem principal_resolver_amended (users : List User) (uid : Nat) (u : User)
    (uname pw : String) :
    requireAuth users none = Except.error HErr.unauthenticated ∧
    (findUser users uid = none →
      requireAuth users (some uid) = Except.error HErr.unauthenticated) ∧
    (findUser users uid = some u → requireAuth users (some uid) = Except.ok u) ∧
    (users.find? (fun v => v.username == uname || v.email == uname) = some u →
      u.password = pw → u.isActive = false → uname ≠ "" → pw ≠ "" →
      login users uname pw = Except.error HErr.unauthenticated) := by
  refine ⟨rfl, ?_, ?_, ?_⟩
  · intro h
    simp [requireAuth, h]
  · intro h
    simp [requireAuth, h]
  · intro hfind hpw hact hu hp
    simp [login, hu, hp, hfind, hpw, hact]

theorem principal_resolver_amended_witness :
    requireAuth sampleUsers (some 4) = Except.ok uEve ∧
    login sampleUsers "eve" "evepw123" = Except.error HErr.unauthenticated := by
  have h := principal_resolver_amended sampleUsers 4 uEve "eve" "evepw123"
  exact ⟨h.2.2.1 (by decide),
    h.2.2.2 (by decide) rfl rfl (by decide) (by decide)⟩

/-- C6: once the ownership check passes, an admin update applies only
status/adminResponse/priority from the request and a non-admin update only
subject/message/rating/category — every content field stays fixed under an
admin update, every triage field stays fixed under an owner update, request
fields outside the caller's allowed set have no effect on the result at all,
and a request whose allowed fields validate succeeds (no error) even when
out-of-set fields are present. -/
theorem update_field_scoping (db : List Feedback) (p : User) (id : Nat)
    (b : UpdateBody) (now : Nat) (fb fb' : Feedback)
    (hfind : findById db id = some fb) :
    (∀ x y z w v t, updateFeedback db p id
        { b with
          userId := x,
          customerName := y,
          customerEmail := z,
          isPublic := w,
          respondedAt := v,
          resolvedAt := t } now =
      updateFeedback db p id b now) ∧
    (privacyDenied p fb = false →
      validPatch (buildUpdatePatch p b now) = true →
      updateFeedback db p id b now =
        Except.ok (applyPatch fb (buildUpdatePatch p b now) now)) ∧
    (p.role = Role.admin →
      updateFeedback db p id b now = Except.ok fb' →
      fb'.subject = fb.subject ∧ fb'.message = fb.message ∧
      fb'.rating = fb.rating ∧ fb'.category = fb.category ∧
      fb'.customerName = fb.customerName ∧ fb'.customerEmail = fb.customerEmail ∧
      fb'.userId = fb.userId ∧ fb'.isPublic = fb.isPublic ∧
      fb'.resolvedAt = fb.resolvedAt ∧ fb'.createdAt = fb.createdAt) ∧
    (p.role ≠ Role.admin →
      updateFeedback db p id b now = Except.ok fb' →
      fb'.status = fb.status ∧ fb'.adminResponse = fb.adminResponse ∧
      fb'.priority = fb.priority ∧ fb'.respondedAt = fb.respondedAt ∧
      fb'.resolvedAt = fb.resolvedAt ∧ fb'.userId = fb.userId ∧
      fb'.customerName = fb.customerName ∧ fb'.customerEmail = fb.customerEmail ∧
      fb'.isPublic = fb.isPublic ∧ fb'.createdAt = fb.createdAt) := by
  refine ⟨fun x y z w v t => rfl, ?_, ?_, ?_⟩
  · intro hdeny hval
    simp [updateFeedback, hfind, hdeny, hval]
  · intro hadm h
    simp only [updateFeedback, hfind] at h
    split at h
    · exact absurd h (by simp)
    · split at h
      · cases h
        simp only [buildUpdatePatch, applyPatch, hadm]
        split <;> simp
      · exact absurd h (by simp)
  · intro hadm h
    simp only [updateFeedback, hfind] at h
    split at h
    · exact absurd h (by simp)
    · split at h
      · cases h
        simp only [buildUpdatePatch, applyPatch, hadm]
        split <;> simp_all
      · exact absurd h (by simp)

theorem update_field_scoping_witness :
    updateFeedback sampleDb uAdmin 1
      { status := some "resolved", customerName := some "Mallory" } 300 =
      Except.ok (applyPatch fbAlice
        (buildUpdatePatch uAdmin
          { status := some "resolved", customerName := some "Mallory" } 300) 300) ∧
    (applyPatch fbAlice
      (buildUpdatePatch uAdmin
        { status := some "resolved", customerName := some "Mallory" } 300)
      300).customerName = fbAlice.customerName := by
  have h := update_field_scoping sampleDb uAdmin 1
    { status := some "resolved", customerName := some "Mallory" } 300 fbAlice
    (applyPatch fbAlice
      (buildUpdatePatch uAdmin
        { status := some "resolved", customerName := some "Mallory" } 300) 300)
    (by decide)
  have hok := h.2.1 (by decide) (by decide)
  exact ⟨hok, (h.2.2.1 rfl hok).2.2.2.2.1⟩

/-- C7 counterexample: `fbResponded` already has `respondedAt = some 120`,
yet an admin update carrying a non-blank `adminResponse` (and no explicit
status) overwrites it with the new update time 200 — the code stamps
`respondedAt` unconditionally, not "only if not already set". -/
theorem responded_at_overwrite_cex :
    fbResponded.respondedAt = some 120 ∧
    updateFeedback sampleDb uAdmin 3
      { adminResponse := some "Thanks for waiting" } 200 =
      Except.ok
        { fbResponded with
          adminResponse := some "Thanks for waiting",
          status := "responded",
          respondedAt := some 200,
          updatedAt := 200 } := by
  exact ⟨rfl, by decide⟩

/-- C7 amended: an admin update with a non-blank adminResponse and no
explicit status yields status "responded" and `respondedAt` equal to the
update time (hence ≥ the unchanged createdAt whenever the clock is
monotone), but the stamp is unconditional: any previously set respondedAt
is overwritten, on the generic update route and equally on the dedicated
admin respond route. -/
theorem admin_response_stamp_amended (db : List Feedback) (p : User)
    (id now : Nat) (b : UpdateBody) (fb : Feedback)
    (hadmin : p.role = Role.admin) (hfind : findById db id = some fb)
    (hresp : respNonBlank b.adminResponse = true) (_hstat : b.status = none)
    (hval : validPatch (buildUpdatePatch p b now) = true)
    (hlen : (trimStr (b.adminResponse.getD "")).length ≤ 2000)
    (hclock : fb.createdAt ≤ now) :
    (∃ fb', updateFeedback db p id b now = Except.ok fb' ∧
      fb'.status = "responded" ∧ fb'.respondedAt = some now ∧
      fb'.createdAt = fb.createdAt ∧ fb'.createdAt ≤ now) ∧
    (∃ g, adminRespond db id b.adminResponse none now = Except.ok g ∧
      g.status = "responded" ∧ g.respondedAt = some now ∧
      g.createdAt = fb.createdAt ∧ g.createdAt ≤ now) := by
  have hdeny : privacyDenied p fb = false := by
    simp [privacyDenied, hadmin]
  constructor
  · refine ⟨applyPatch fb (buildUpdatePatch p b now) now, ?_, ?_, ?_, ?_, ?_⟩
    · simp [updateFeedback, hfind, hdeny, hval]
    · simp [applyPatch, buildUpdatePatch, hadmin, hresp]
    · simp [applyPatch, buildUpdatePatch, hadmin, hresp]
    · simp [applyPatch]
    · simpa [applyPatch] using hclock
  · have hstamp : ∀ (c : Bool) (x : Feedback), x.respondedAt = some now →
        preSaveStamp c x now = x := fun c x hx => by
      simp [preSaveStamp, hx]
    refine ⟨{ fb with
        adminResponse := some (trimStr (b.adminResponse.getD "")),
        status := "responded",
        respondedAt := some now,
        updatedAt := now }, ?_, rfl, rfl, rfl, hclock⟩
    simp only [adminRespond, Option.getD_none, hfind]
    rw [if_neg (by simp [hresp])]
    rw [hstamp _ _ rfl]
    rw [if_pos (by simp [statusOk, hlen])]

theorem admin_response_stamp_amended_witness :
    (∃ fb', updateFeedback sampleDb uAdmin 3
        { adminResponse := some "We fixed it" } 500 = Except.ok fb' ∧
      fb'.status = "responded" ∧ fb'.respondedAt = some 500 ∧
      fb'.createdAt = fbResponded.createdAt ∧ fb'.createdAt ≤ 500) ∧
    (∃ g, adminRespond sampleDb 3 (some "We fixed it") none 500 = Except.ok g ∧
      g.status = "responded" ∧ g.respondedAt = some 500 ∧
      g.createdAt = fbResponded.createdAt ∧ g.createdAt ≤ 500) :=
  admin_response_stamp_amended sampleDb uAdmin 3 500
    { adminResponse := some "We fixed it" } fbResponded rfl (by decide)
    (by decide) rfl (by decide) (by decide) (by decide)

/-- C8: for Get, Update and Delete alike, a record id that matches nothing
yields NotFound no matter who asks, an existing record whose owner is some
other user yields Forbidden for a non-admin caller, and the two outcomes
are distinct. -/
theorem single_record_error_taxonomy (db : List Feedback) (p : User)
    (id : Nat) (b : UpdateBody) (now : Nat) :
    (findById db id = none →
      getFeedback db p id = Except.error HErr.notFound ∧
      updateFeedback db p id b now = Except.error HErr.notFound ∧
      deleteFeedback db p id = Except.error HErr.notFound) ∧
    (∀ fb uid, findById db id = some fb → p.role ≠ Role.admin →
      fb.userId = some uid → uid ≠ p.id →
      getFeedback db p id = Except.error HErr.forbidden ∧
      updateFeedback db p id b now = Except.error HErr.forbidden ∧
      deleteFeedback db p id = Except.error HErr.forbidden) ∧
    HErr.forbidden ≠ HErr.notFound := by
  refine ⟨?_, ?_, by decide⟩
  · intro h
    exact ⟨by simp [getFeedback, h], by simp [updateFeedback, h],
      by simp [deleteFeedback, h]⟩
  · intro fb uid hfind hrole hown hne
    have hd : privacyDenied p fb = true := by
      simp [privacyDenied, hrole, hown, hne]
    exact ⟨by simp [getFeedback, hfind, hd], by simp [updateFeedback, hfind, hd],
      by simp [deleteFeedback, hfind, hd]⟩

theorem single_record_error_taxonomy_witness :
    (getFeedback sampleDb uBob 99 = Except.error HErr.notFound ∧
     updateFeedback sampleDb uBob 99 {} 0 = Except.error HErr.notFound ∧
     deleteFeedback sampleDb uBob 99 = Except.error HErr.notFound) ∧
    (getFeedback sampleDb uBob 1 = Except.error HErr.forbidden ∧
     updateFeedback sampleDb uBob 1 {} 0 = Except.error HErr.forbidden ∧
     deleteFeedback sampleDb uBob 1 = Except.error HErr.forbidden) := by
  have h := single_record_error_taxonomy sampleDb uBob 99 {} 0
  have h' := single_record_error_taxonomy sampleDb uBob 1 {} 0
  exact ⟨h.1 (by decide),
    h'.2.1 fbAlice 1 (by decide) (by decide) rfl (by decide)⟩

/-- C9: the sentiment-analysis service catches every failure — an upstream
error and unparseable output alike — and returns the documented fallback
object (sentiment neutral, confidence 0.5, emotions unknown, urgency
medium, keyPoints requiring manual review) instead of propagating. -/
theorem sentiment_failure_fallback (e text : String)
    (parse : String → Option SentimentAnalysis)
    (hparse : parse (trimStr text) = none) :
    analyzeSentiment (Except.error e) parse = fallbackSentiment ∧
    analyzeSentiment (Except.ok text) parse = fallbackSentiment ∧
    fallbackSentiment =
      { sentiment := "neutral", confidence := 1/2, emotions := ["unknown"],
        urgency := "medium", keyPoints := ["Requires manual review"] } :=
  ⟨rfl, by simp [analyzeSentiment, hparse], rfl⟩

theorem sentiment_failure_fallback_witness :
    analyzeSentiment (Except.error "upstream 500") (fun _ => none) =
      fallbackSentiment ∧
    analyzeSentiment (Except.ok "not json at all") (fun _ => none) =
      fallbackSentiment := by
  have h := sentiment_failure_fallback "upstream 500" "not json at all"
    (fun _ => none) rfl
  exact ⟨h.1, h.2.1⟩

/-- C10: the admin status-only update goes through `findByIdAndUpdate`, so
the pre-save stamping hook never runs: setting status to "responded" (or
"pending") changes the status and the automatic updatedAt and nothing else —
in particular respondedAt is not stamped — and only status "resolved"
additionally stamps resolvedAt. -/
theorem status_only_update_frame (db : List Feedback) (id now : Nat)
    (fb : Feedback) (hfind : findById db id = some fb) :
    adminSetStatus db id "responded" now =
      Except.ok
        { fb with
          status := "responded",
          updatedAt := now } ∧
    adminSetStatus db id "pending" now =
      Except.ok
        { fb with
          status := "pending",
          updatedAt := now } ∧
    adminSetStatus db id "resolved" now =
      Except.ok
        { fb with
          status := "resolved",
          resolvedAt := some now,
          updatedAt := now } := by
  refine ⟨?_, ?_, ?_⟩ <;>
    simp [adminSetStatus, statusOk, hfind, applyPatch]

theorem status_only_update_frame_witness :
    adminSetStatus sampleDb 1 "responded" 600 =
      Except.ok
        { fbAlice with
          status := "responded",
          updatedAt := 600 } ∧
    ({ fbAlice with
       status := "responded",
       updatedAt := 600 } : Feedback).respondedAt = none ∧
    adminSetStatus sampleDb 1 "resolved" 600 =
      Except.ok
        { fbAlice with
          status := "resolved",
          resolvedAt := some 600,
          updatedAt := 600 } := by
  have h := status_only_update_frame sampleDb 1 600 fbAlice (by decide)
  exact ⟨h.1, rfl, h.2.2⟩
